import Mathlib

/-!
Verification development for the mdzen markdown viewer
(src/app.rs, src/markdown.rs).  The Rust code is shallowly embedded:
Rust `String`s become lists of Unicode scalar values with explicit
UTF-8 byte offsets (Rust slices strings by byte index and panics on
non-character boundaries, which we model with `Option`), the
single-pass event-driven renderer becomes a step function over an
explicit state record, and the application session becomes a record
with pure state-transition functions.
-/

namespace Mdzen

/-- A Rust `String` / `&str`: a sequence of Unicode scalar values. -/
abbrev RStr := List Char

/-- Number of bytes of a scalar value in UTF-8. -/
def utf8Len (c : Char) : Nat :=
  if c.toNat < 0x80 then 1
  else if c.toNat < 0x800 then 2
  else if c.toNat < 0x10000 then 3
  else 4

/-- Byte length of a string in UTF-8, i.e. Rust `str::len`. -/
def byteLen (s : RStr) : Nat := (s.map utf8Len).sum

/-- Whether the first argument occurs at the head of the second. -/
def leadsWith : RStr → RStr → Bool
  | [], _ => true
  | _ :: _, [] => false
  | a :: n1, b :: h1 => a == b && leadsWith n1 h1

/-- Rust `str::find(&str)`: byte offset of the leftmost occurrence of
`needle`.  A valid UTF-8 needle can only match at character boundaries
(continuation bytes never equal lead bytes), so searching per character
is faithful. -/
def subFind (needle : RStr) : RStr → Option Nat
  | [] => if leadsWith needle [] then some 0 else none
  | c :: rest =>
    if leadsWith needle (c :: rest) then some 0
    else (subFind needle rest).map (fun k => k + utf8Len c)

/-- Drop the first `n` bytes of a string; `none` when `n` is not a
character boundary or exceeds the length (Rust `&s[n..]` panics there). -/
def dropBytes : RStr → Nat → Option RStr
  | s, 0 => some s
  | [], _ + 1 => none
  | c :: rest, n + 1 =>
    if utf8Len c ≤ n + 1 then dropBytes rest (n + 1 - utf8Len c) else none

/-- Take the first `n` bytes of a string; `none` when `n` is not a
character boundary or exceeds the length. -/
def takeBytes : RStr → Nat → Option RStr
  | _, 0 => some []
  | [], _ + 1 => none
  | c :: rest, n + 1 =>
    if utf8Len c ≤ n + 1 then (takeBytes rest (n + 1 - utf8Len c)).map (fun t => c :: t)
    else none

/-- Rust byte-range slice `&s[a..b]`: `none` models the panic on
reversed ranges, out-of-range ends, or non-character boundaries. -/
def byteSlice (s : RStr) (a b : Nat) : Option RStr :=
  if a ≤ b then
    match dropBytes s a with
    | none => none
    | some t => takeBytes t (b - a)
  else none

/-- Character-index slice of a string (count in scalar values). -/
def charSlice (s : RStr) (a b : Nat) : RStr := (s.drop a).take (b - a)

/-- The Turkish dotted capital I (U+0130), whose Rust lowercase
`"i\u{307}"` is one byte longer than the character itself. -/
def iDot : Char := Char.ofNat 0x130

/-- Rust `char`-level lowercasing as performed by `str::to_lowercase`
(external standard library collaborator).  The Unicode mapping is
modelled for the character classes exercised in this development:
ASCII letters, U+0130 (which expands to two scalars) and the Kelvin
sign U+212A; every other character is lowercase-stable here. -/
def lowerChar (c : Char) : List Char :=
  if 'A' ≤ c ∧ c ≤ 'Z' then [Char.ofNat (c.toNat + 32)]
  else if c = iDot then [Char.ofNat 0x69, Char.ofNat 0x307]
  else if c = Char.ofNat 0x212A then [Char.ofNat 0x6B]
  else [c]

/-- Rust `str::to_lowercase`. -/
def strLower (s : RStr) : RStr := (s.map lowerChar).flatten

/-- Rust `char::is_whitespace` restricted to the ASCII whitespace
characters exercised here. -/
def isWsChar (c : Char) : Bool :=
  c == ' ' || c == '\t' || c == '\n' || c == '\r' ||
  c == Char.ofNat 0x0B || c == Char.ofNat 0x0C

/-- Rust `str::trim`. -/
def trimChars (s : RStr) : RStr :=
  ((s.dropWhile isWsChar).reverse.dropWhile isWsChar).reverse

/-- Split a string at every newline character (keeping empty segments). -/
def splitOnNl : RStr → List RStr
  | [] => [[]]
  | c :: rest =>
    if c = '\n' then [] :: splitOnNl rest
    else
      match splitOnNl rest with
      | [] => [[c]]
      | l :: ls => (c :: l) :: ls

/-- Remove one trailing carriage return (for a `\r\n` terminator). -/
def stripCr (l : RStr) : RStr :=
  if l.getLast? = some '\r' then l.dropLast else l

/-- Rust `str::lines`: split at `\n` or `\r\n`; a final line terminator
produces no trailing empty line; a last line without terminator keeps a
lone trailing `\r`. -/
def rustLines (s : RStr) : List RStr :=
  if s = [] then []
  else
    let p := splitOnNl s
    let n := p.length
    let q := p.enum.map (fun pr => if pr.1 + 1 = n then pr.2 else stripCr pr.2)
    if q.getLast? = some [] then q.dropLast else q

/-- One search hit, as stored by `perform_search` (src/app.rs). -/
structure SearchResult where
  line_number : Nat
  line_content : RStr
  match_start : Nat
  match_end : Nat
deriving DecidableEq, Repr

/-- The `while let Some(pos) = search_line[start..].find(&query)` loop of
`perform_search` (src/app.rs): non-overlapping matches left to right,
resuming at each match end.  Offsets are byte offsets into `sline`.
The fuel argument only bounds the recursion; each iteration advances
`start` by at least one byte, so `byteLen sline + 1` is always enough. -/
def scanMatches : Nat → RStr → RStr → Nat → List (Nat × Nat)
  | 0, _, _, _ => []
  | fuel + 1, sline, needle, start =>
    match dropBytes sline start with
    | none => []
    | some tail =>
      match subFind needle tail with
      | none => []
      | some pos =>
        let ms := start + pos
        let me := ms + byteLen needle
        (ms, me) :: scanMatches fuel sline needle me

/-- `perform_search` (src/app.rs lines 196-232) as a pure function from
(document text, query, case-sensitive mode) to the result list.  The
line content stored in a result is the raw line; the offsets are the
byte offsets produced by scanning the (possibly lowercased) line. -/
def performSearch (content query : RStr) (caseSensitive : Bool) : List SearchResult :=
  if query = [] then []
  else
    let q := if caseSensitive then query else strLower query
    ((rustLines content).enum.map (fun p =>
      let sline := if caseSensitive then p.2 else strLower p.2
      (scanMatches (byteLen sline + 1) sline q 0).map (fun m =>
        ⟨p.1, p.2, m.1, m.2⟩))).flatten

/-- The search-highlight splitting loop shared verbatim by
`append_text_with_search_highlight`, `append_inline_code_with_search_highlight`
and `append_heading_with_search_highlight` (src/markdown.rs): scan the
lowercased text for the lowercased query, and slice the ORIGINAL text at
the byte offsets found, taking `match_end = match_start + byteLen query`
with the original query's byte length.  Each produced run is paired with
its highlight flag.  `none` models a Rust string-slicing panic.  Fuel
only bounds the loop; `start` advances by the query's byte length (at
least one when the query is non-empty) each iteration. -/
def hsLoop (text tl ql : RStr) (qlen : Nat) :
    Nat → Nat → Nat → List (RStr × Bool) → Option (List (RStr × Bool))
  | 0, _, _, _ => none
  | fuel + 1, lastEnd, startPos, acc =>
    match dropBytes tl startPos with
    | none => none
    | some tail =>
      match subFind ql tail with
      | none =>
        if lastEnd < byteLen text then
          (byteSlice text lastEnd (byteLen text)).map (fun after => acc ++ [(after, false)])
        else some acc
      | some pos =>
        let ms := startPos + pos
        let me := ms + qlen
        let withBefore : Option (List (RStr × Bool)) :=
          if lastEnd < ms then
            (byteSlice text lastEnd ms).map (fun b => acc ++ [(b, false)])
          else some acc
        match withBefore with
        | none => none
        | some acc1 =>
          match byteSlice text ms me with
          | none => none
          | some m => hsLoop text tl ql qlen fuel me me (acc1 ++ [(m, true)])

/-- Split a text fragment into (run, highlighted?) pieces for a search
query, as the three `append_*_with_search_highlight` functions do. -/
def highlightSplit (text query : RStr) : Option (List (RStr × Bool)) :=
  let tl := strLower text
  hsLoop text tl (strLower query) (byteLen query) (byteLen tl + 2) 0 0 []

/-- A table-of-contents entry (`TocHeader`, src/app.rs). -/
structure TocHeader where
  level : Nat
  title : RStr
  line_number : Nat
deriving DecidableEq, Repr

/-- The flat event stream produced by the external markdown event source
(pulldown-cmark), per spec section 6: container open/close pairs plus
leaf events. -/
inductive Ev where
  | startParagraph | endParagraph
  | startHeading (level : Nat) | endHeading
  | startCodeBlock (lang : RStr) | endCodeBlock
  | startEmphasis | endEmphasis
  | startStrong | endStrong
  | inlineCode (s : RStr)
  | text (s : RStr)
  | softBreak | hardBreak
  | startBlockQuote | endBlockQuote
  | startLink (url : RStr) | endLink
  | startList (ordered : Bool) | endList
  | startItem | endItem
  | startTable | endTable
  | startTableHead | endTableHead
  | startTableRow | endTableRow
  | startTableCell | endTableCell
  | startImage (url : RStr) | endImage
  | rule
deriving DecidableEq, Repr

/-- Internal state of `generate_toc` (src/app.rs lines 142-190). -/
structure TocState where
  current : Option (Nat × RStr)
  line : Nat
  acc : List TocHeader

/-- One event of `generate_toc`'s loop: a heading start opens a buffer,
text and inline code append to it, a heading end pushes a `TocHeader`
when the trimmed buffer is non-empty, and soft/hard breaks bump the
line counter. -/
def tocStep (st : TocState) (e : Ev) : TocState :=
  match e with
  | .startHeading l => { st with current := some (l, []) }
  | .endHeading =>
    match st.current with
    | some lt =>
      { st with current := none,
                acc := if trimChars lt.2 = [] then st.acc
                       else st.acc ++ [⟨lt.1, trimChars lt.2, st.line⟩] }
    | none => st
  | .text s1 =>
    match st.current with
    | some lt => { st with current := some (lt.1, lt.2 ++ s1) }
    | none => st
  | .inlineCode s1 =>
    match st.current with
    | some lt => { st with current := some (lt.1, lt.2 ++ s1) }
    | none => st
  | .softBreak => { st with line := st.line + 1 }
  | .hardBreak => { st with line := st.line + 1 }
  | _ => st

/-- `generate_toc` (src/app.rs): the independent pass extracting the
table of contents from the event stream. -/
def generateToc (events : List Ev) : List TocHeader :=
  (events.foldl tocStep ⟨none, 0, []⟩).acc

/-- One styled inline run appended to a `LayoutJob`: its text plus the
style-determining facts (strong text uses a larger font, emphasis is
italic, link runs are underlined in the link color, a highlighted run
overrides color/background, inline code uses the monospace font). -/
structure Run where
  text : RStr
  strong : Bool
  emphasis : Bool
  link : Bool
  highlighted : Bool
  mono : Bool
deriving DecidableEq, Repr

/-- One finished renderable unit appended by `render_events`
(src/markdown.rs): the block stream of spec section 3. -/
inductive Block where
  | heading (level : Nat) (text : RStr)
  | paragraph (runs : List Run) (links : List (RStr × RStr))
  | blockquote (runs : List Run)
  | codeBlock (content lang : RStr)
  | list (ordered : Bool) (items : List (RStr × Nat))
  | table (headers : List RStr) (rows : List (List RStr))
  | image (url alt : RStr)
  | rule
deriving DecidableEq, Repr

/-- `ElementState` (src/markdown.rs lines 33-51). -/
structure ElementState where
  isHeading : Bool := false
  headingLevel : Nat := 0
  isEmphasis : Bool := false
  isStrong : Bool := false
  isBlockquote : Bool := false
  isLink : Bool := false
  linkUrl : RStr := []
  accumulatedText : RStr := []
deriving DecidableEq, Repr

/-- The local mutable state of `render_events` (src/markdown.rs lines
170-188) together with the emitted block stream. -/
structure RState where
  paragraph : List Run
  element : ElementState
  inCodeBlock : Bool
  codeContent : RStr
  codeLang : RStr
  paragraphHasContent : Bool
  inBlockquote : Bool
  paragraphLinks : List (RStr × RStr)
  listStack : List (Bool × List (RStr × Nat))
  currentListItem : RStr
  currentNestingLevel : Nat
  inTable : Bool
  tableHeaders : List RStr
  tableRows : List (List RStr)
  currentTableRow : List RStr
  currentTableCell : RStr
  blocks : List Block

/-- The renderer state at the top of `render_events`. -/
def initState : RState :=
  ⟨[], {}, false, [], [], false, false, [], [], [], 0, false, [], [], [], [], []⟩

/-- The styled run `append_text` derives from the element state. -/
def mkRun (el : ElementState) (hl : Bool) (t : RStr) : Run :=
  ⟨t, el.isStrong, el.isEmphasis, el.isLink, hl, false⟩

/-- `append_text` (src/markdown.rs): one run when no query is active,
otherwise the search-highlight split; also the link info returned to
the caller when inside a link with a non-empty destination. -/
def appendTextModel (query : RStr) (el : ElementState) (t : RStr) :
    Option (List Run × Option (RStr × RStr)) :=
  let runs? : Option (List Run) :=
    if query = [] then some [mkRun el false t]
    else (highlightSplit t query).map (fun ps => ps.map (fun p => mkRun el p.2 p.1))
  runs?.map (fun runs =>
    (runs, if el.isLink ∧ el.linkUrl ≠ [] then some (el.linkUrl, t) else none))

/-- `append_inline_code` (src/markdown.rs): monospace base style. -/
def appendInlineCodeModel (query : RStr) (t : RStr) : Option (List Run) :=
  if query = [] then some [⟨t, false, false, false, false, true⟩]
  else (highlightSplit t query).map (fun ps => ps.map (fun p => ⟨p.1, false, false, false, p.2, true⟩))

/-- Replace the last element of a list (the top of a Rust `Vec` stack). -/
def updateLast {α : Type} (f : α → α) : List α → List α
  | [] => []
  | [a] => [f a]
  | a :: b :: t => a :: updateLast f (b :: t)

/-- One arm of the `match event` dispatch of `render_events`
(src/markdown.rs lines 190-460), transcribed arm by arm.  Emitted
blocks are appended to `blocks` where the Rust code calls a
`render_*` helper.  `none` models a string-slicing panic inside the
search-highlight splitters. -/
def step (query : RStr) (s : RState) (e : Ev) : Option RState :=
  match e with
  | .startParagraph => some { s with paragraph := [], paragraphHasContent := false }
  | .endParagraph =>
    let s1 :=
      if s.paragraphHasContent then
        { s with blocks := s.blocks ++
            [if s.inBlockquote then Block.blockquote s.paragraph
             else Block.paragraph s.paragraph s.paragraphLinks] }
      else s
    some { s1 with paragraph := [], paragraphHasContent := false, paragraphLinks := [] }
  | .startHeading l =>
    some { s with element :=
      { s.element with isHeading := true, headingLevel := l, accumulatedText := [] } }
  | .endHeading =>
    if s.element.accumulatedText = [] then some { s with element := {} }
    else if query = [] then
      some { s with
        blocks := s.blocks ++ [Block.heading s.element.headingLevel s.element.accumulatedText],
        element := {} }
    else
      (highlightSplit s.element.accumulatedText query).map (fun _ =>
        { s with
          blocks := s.blocks ++ [Block.heading s.element.headingLevel s.element.accumulatedText],
          element := {} })
  | .startCodeBlock lang =>
    some { s with inCodeBlock := true, codeContent := [], codeLang := lang }
  | .endCodeBlock =>
    some { s with inCodeBlock := false,
                  blocks := s.blocks ++ [Block.codeBlock s.codeContent s.codeLang],
                  codeContent := [] }
  | .startEmphasis => some { s with element := { s.element with isEmphasis := true } }
  | .endEmphasis => some { s with element := { s.element with isEmphasis := false } }
  | .startStrong => some { s with element := { s.element with isStrong := true } }
  | .endStrong => some { s with element := { s.element with isStrong := false } }
  | .inlineCode t =>
    if s.element.isHeading then
      some { s with element :=
        { s.element with accumulatedText := s.element.accumulatedText ++ t } }
    else
      (appendInlineCodeModel query t).map (fun runs =>
        { s with paragraph := s.paragraph ++ runs, paragraphHasContent := true })
  | .text t =>
    if s.inCodeBlock then some { s with codeContent := s.codeContent ++ t }
    else if s.element.isHeading then
      some { s with element :=
        { s.element with accumulatedText := s.element.accumulatedText ++ t } }
    else if s.inTable then some { s with currentTableCell := s.currentTableCell ++ t }
    else if s.listStack ≠ [] then some { s with currentListItem := s.currentListItem ++ t }
    else if s.element.linkUrl ≠ [] ∧ s.element.accumulatedText = [] then
      some { s with element :=
        { s.element with accumulatedText := s.element.accumulatedText ++ t } }
    else
      (appendTextModel query s.element t).map (fun ri =>
        { s with paragraph := s.paragraph ++ ri.1,
                 paragraphLinks := s.paragraphLinks ++ ri.2.toList,
                 paragraphHasContent := true })
  | .softBreak =>
    if s.inCodeBlock then some s
    else if s.element.isHeading then
      some { s with element :=
        { s.element with accumulatedText := s.element.accumulatedText ++ [' '] } }
    else if s.listStack ≠ [] then some { s with currentListItem := s.currentListItem ++ [' '] }
    else
      (appendTextModel query s.element [' ']).map (fun ri =>
        { s with paragraph := s.paragraph ++ ri.1,
                 paragraphLinks := s.paragraphLinks ++ ri.2.toList })
  | .hardBreak =>
    if s.inCodeBlock then some s
    else if s.element.isHeading then
      some { s with element :=
        { s.element with accumulatedText := s.element.accumulatedText ++ ['\n'] } }
    else if s.listStack ≠ [] then some { s with currentListItem := s.currentListItem ++ ['\n'] }
    else
      (appendTextModel query s.element ['\n']).map (fun ri =>
        { s with paragraph := s.paragraph ++ ri.1,
                 paragraphLinks := s.paragraphLinks ++ ri.2.toList })
  | .startBlockQuote =>
    some { s with inBlockquote := true, element := { s.element with isBlockquote := true } }
  | .endBlockQuote =>
    some { s with inBlockquote := false, element := { s.element with isBlockquote := false } }
  | .startLink url =>
    some { s with element := { s.element with isLink := true, linkUrl := url } }
  | .endLink =>
    some { s with element := { s.element with isLink := false, linkUrl := [] } }
  | .startList ordered =>
    let st := s.listStack ++ [(ordered, [])]
    some { s with listStack := st, currentNestingLevel := st.length - 1 }
  | .endList =>
    match s.listStack.getLast? with
    | some fr =>
      let st := s.listStack.dropLast
      some { s with listStack := st,
                    blocks := s.blocks ++ [Block.list fr.1 fr.2],
                    currentNestingLevel := st.length - 1 }
    | none => some { s with currentNestingLevel := s.listStack.length - 1 }
  | .startItem => some { s with currentListItem := [] }
  | .endItem =>
    if s.listStack ≠ [] ∧ s.currentListItem ≠ [] then
      some { s with
        listStack := updateLast
          (fun fr => (fr.1, fr.2 ++ [(s.currentListItem, s.currentNestingLevel)])) s.listStack,
        currentListItem := [] }
    else some s
  | .startTable => some { s with inTable := true, tableHeaders := [], tableRows := [] }
  | .endTable =>
    let s1 :=
      if s.inTable then
        { s with blocks := s.blocks ++ [Block.table s.tableHeaders s.tableRows] }
      else s
    some { s1 with inTable := false }
  | .startTableHead => some { s with currentTableRow := [] }
  | .endTableHead =>
    if s.inTable then some { s with tableHeaders := s.currentTableRow, currentTableRow := [] }
    else some s
  | .startTableRow => some { s with currentTableRow := [] }
  | .endTableRow =>
    if s.inTable ∧ s.currentTableRow ≠ [] then
      some { s with tableRows := s.tableRows ++ [s.currentTableRow], currentTableRow := [] }
    else some s
  | .startTableCell => some { s with currentTableCell := [] }
  | .endTableCell =>
    if s.inTable then
      some { s with currentTableRow := s.currentTableRow ++ [s.currentTableCell],
                    currentTableCell := [] }
    else some s
  | .startImage url =>
    some { s with element := { s.element with linkUrl := url, accumulatedText := [] } }
  | .endImage =>
    some { s with
      blocks := s.blocks ++ [Block.image s.element.linkUrl s.element.accumulatedText],
      element := { s.element with linkUrl := [], accumulatedText := [] } }
  | .rule => some { s with blocks := s.blocks ++ [Block.rule] }

/-- Run `render_events`'s loop over a whole event list. -/
def runEvents (query : RStr) : RState → List Ev → Option RState
  | s, [] => some s
  | s, e :: rest =>
    match step query s e with
    | some s1 => runEvents query s1 rest
    | none => none

/-- `render_events` (src/markdown.rs): the produced block stream paired
with the function's return value, which is `scroll_to_header.clone()`
regardless of whether any heading matched (line 463). -/
def renderPass (events : List Ev) (query : RStr) (scrollToHeader : Option RStr) :
    Option (List Block × Option RStr) :=
  (runEvents query initState events).map (fun s => (s.blocks, scrollToHeader))

/-- The caller in `update` (src/app.rs lines 512-527 and 544-559):
`if render(...).is_some() { self.scroll_to_header = None; }`.  Returns
the pending scroll target after one render pass. -/
def scrollAfterPass (events : List Ev) (query : RStr) (scroll : Option RStr) : Option RStr :=
  match renderPass events query scroll with
  | some pr => if pr.2.isSome then none else scroll
  | none => scroll

/-- The image cache: `HashMap<String, Result<TextureHandle, String>>`
modelled as an association list keyed by the literal reference string;
texture handles are opaque numbers. -/
abbrev Cache := List (RStr × Except RStr Nat)

/-- `HashMap::get` on the cache. -/
def cacheLookup : Cache → RStr → Option (Except RStr Nat)
  | [], _ => none
  | kv :: rest, k => if kv.1 = k then some kv.2 else cacheLookup rest k

/-- `HashMap::insert` on the cache: replaces an existing entry for the
key, otherwise adds one. -/
def cacheInsert (c : Cache) (k : RStr) (v : Except RStr Nat) : Cache :=
  if (cacheLookup c k).isSome then c.map (fun p => if p.1 = k then (k, v) else p)
  else c ++ [(k, v)]

/-- `Result::ok` composed with `cloned`, as used by `load_image`. -/
def exceptToOption : Except RStr Nat → Option Nat
  | .ok a => some a
  | .error _ => none

/-- Outcome of one `load_image` call: the optional texture returned to
the renderer, the cache afterwards, and whether a resolution attempt
(`try_load_image`) was made during the call. -/
structure LoadOut where
  texture : Option Nat
  cache : Cache
  attempted : Bool

/-- `load_image` (src/markdown.rs lines 72-88).  `tryLoad` abstracts
`try_load_image` (network fetch / file read / decode, all external
collaborators); it returns either a texture handle or the
human-readable error message built by `try_load_image`. -/
def loadImage (tryLoad : RStr → Except RStr Nat) (cache : Cache) (url : RStr) : LoadOut :=
  match cacheLookup cache url with
  | some r => ⟨exceptToOption r, cache, false⟩
  | none =>
    let r := tryLoad url
    ⟨exceptToOption r, cacheInsert cache url r, true⟩

/-- The session state of `MarkdownReaderApp` (src/app.rs) restricted to
the fields the verified operations touch. -/
structure AppState where
  content : RStr
  current_file : Option RStr
  image_cache : Cache
  search_query : RStr
  search_results : List SearchResult
  current_search_index : Nat
  search_case_sensitive : Bool
  toc_headers : List TocHeader
  scroll_to_header : Option RStr

/-- `perform_search` as a state transition: the result list is
recomputed from (content, query, mode) and the cursor is set to 0
(src/app.rs lines 196-198). -/
def performSearchApp (s : AppState) : AppState :=
  { s with
    search_results := performSearch s.content s.search_query s.search_case_sensitive,
    current_search_index := 0 }

/-- `next_search_result` (src/app.rs lines 235-239). -/
def nextSearchResult (s : AppState) : AppState :=
  if s.search_results.isEmpty then s
  else { s with current_search_index :=
    (s.current_search_index + 1) % s.search_results.length }

/-- `previous_search_result` (src/app.rs lines 242-250). -/
def prevSearchResult (s : AppState) : AppState :=
  if s.search_results.isEmpty then s
  else { s with current_search_index :=
    if s.current_search_index = 0 then s.search_results.length - 1
    else s.current_search_index - 1 }

/-- The search-bar close handlers (src/app.rs lines 352-355 and
390-393): the result list is cleared; the cursor is left as is. -/
def clearSearchResults (s : AppState) : AppState :=
  { s with search_results := [] }

/-- `load_file` (src/app.rs lines 127-136).  `readResult` abstracts
`fs::read_to_string` and `parse` abstracts the pulldown-cmark pass
used by `generate_toc`; the `?` operator returns before any state is
mutated, so on error the state is the input state. -/
def loadFile (parse : RStr → List Ev) (s : AppState) (path : RStr)
    (readResult : Except RStr RStr) : AppState × Except RStr Unit :=
  match readResult with
  | .error e => (s, .error e)
  | .ok content =>
    ({ s with content := content,
              current_file := some path,
              image_cache := [],
              search_results := [],
              current_search_index := 0,
              toc_headers := generateToc (parse content) }, .ok ())

/-- Render-time safety condition (src/app.rs lines 504-508): whenever
the result list is non-empty the cursor indexes it in bounds. -/
def searchInvariant (s : AppState) : Prop :=
  s.search_results ≠ [] → s.current_search_index < s.search_results.length

/-- Event sequence the external event source (pulldown-cmark, CommonMark
tight nested list) produces for the spec's example input
`"# Title\n\nHello **world**\n\n- a\n  - b\n"`: the nested list opens
inside the first item, whose end event arrives only after the inner
list closes. -/
def exampleEvents : List Ev :=
  [ .startHeading 1, .text "Title".toList, .endHeading,
    .startParagraph, .text "Hello ".toList, .startStrong, .text "world".toList, .endStrong,
    .endParagraph,
    .startList false, .startItem, .text "a".toList,
    .startList false, .startItem, .text "b".toList, .endItem, .endList,
    .endItem, .endList ]

/-- Event sequence for the heading-free document `"hello"`. -/
def c4Events : List Ev := [.startParagraph, .text "hello".toList, .endParagraph]

/-- A heading whose accumulated text is a single space. -/
def c5Events : List Ev := [.startHeading 1, .text [' '], .endHeading]

/-- A session about to rebuild its search: document `"a a a"`, query
`"a"` (three hits), cursor previously moved to index 2. -/
def c6State : AppState :=
  ⟨"a a a".toList, none, [], ['a'], performSearch "a a a".toList ['a'] false, 2, false, [],
   none⟩

/-- Three arbitrary search results used to exercise navigation. -/
def navResults : List SearchResult :=
  [⟨0, ['a'], 0, 1⟩, ⟨1, ['a'], 0, 1⟩, ⟨2, ['a'], 0, 1⟩]

/-- Session holding three results with the cursor on the last one. -/
def navStateLast : AppState := ⟨[], none, [], ['a'], navResults, 2, false, [], none⟩

/-- Session holding three results with the cursor on the first one. -/
def navStateZero : AppState := ⟨[], none, [], ['a'], navResults, 0, false, [], none⟩

/-- Session holding no results (cursor left at a stale value). -/
def navStateEmpty : AppState := ⟨[], none, [], ['a'], [], 5, false, [], none⟩

/-- A concrete image reference. -/
def imgUrl : RStr := "x.png".toList

/-- A concrete human-readable resolution error, as formatted by
`try_load_image`. -/
def failMsg : RStr := "Failed to decode image: bad data".toList

/-- A resolution collaborator whose every attempt fails. -/
def failLoader : RStr → Except RStr Nat := fun _ => .error failMsg

/- ------------------------------------------------------------------
Theorems.
------------------------------------------------------------------ -/

/-- Looking up a freshly appended key succeeds when it was absent. -/
theorem cacheLookup_append_self (c : Cache) (k : RStr) (v : Except RStr Nat)
    (h : cacheLookup c k = none) : cacheLookup (c ++ [(k, v)]) k = some v := by
  induction c with
  | nil => simp [cacheLookup]
  | cons kv rest ih =>
    rw [List.cons_append]
    unfold cacheLookup at h ⊢
    by_cases hk : kv.1 = k
    · rw [if_pos hk] at h
      exact Option.noConfusion h
    · rw [if_neg hk] at h
      rw [if_neg hk]
      exact ih h

/-- A key on which lookup fails is not among the cache keys. -/
theorem cacheLookup_none_not_mem (c : Cache) (k : RStr)
    (h : cacheLookup c k = none) : k ∉ c.map Prod.fst := by
  induction c with
  | nil => simp
  | cons kv rest ih =>
    intro hmem
    simp only [List.map_cons, List.mem_cons] at hmem
    unfold cacheLookup at h
    by_cases hk : kv.1 = k
    · rw [if_pos hk] at h
      exact Option.noConfusion h
    · rw [if_neg hk] at h
      rcases hmem with h1 | h2
      · exact hk h1.symm
      · exact ih h h2

/-- Inserting an absent key appends it. -/
theorem cacheInsert_of_none (c : Cache) (k : RStr) (v : Except RStr Nat)
    (h : cacheLookup c k = none) : cacheInsert c k v = c ++ [(k, v)] := by
  unfold cacheInsert
  rw [h]
  simp

/-- C7: a failed resolution attempt caches the error message under the
exact reference string; a subsequent `load_image` call for the same
reference returns the cached outcome without attempting resolution and
leaves the cache unchanged; keys stay pairwise distinct. -/
theorem load_image_error_cached (tryLoad : RStr → Except RStr Nat) (cache : Cache)
    (url msg : RStr)
    (hmiss : cacheLookup cache url = none)
    (hfail : tryLoad url = .error msg)
    (hnd : (cache.map Prod.fst).Nodup) :
    (loadImage tryLoad cache url).texture = none ∧
    (loadImage tryLoad cache url).attempted = true ∧
    cacheLookup (loadImage tryLoad cache url).cache url = some (.error msg) ∧
    ((loadImage tryLoad cache url).cache.map Prod.fst).Nodup ∧
    loadImage tryLoad (loadImage tryLoad cache url).cache url =
      ⟨none, (loadImage tryLoad cache url).cache, false⟩ := by
  have hc : loadImage tryLoad cache url =
      ⟨none, cache ++ [(url, Except.error msg)], true⟩ := by
    simp only [loadImage, hmiss, hfail]
    rw [cacheInsert_of_none cache url _ hmiss]
    rfl
  rw [hc]
  refine ⟨rfl, rfl, cacheLookup_append_self cache url _ hmiss, ?_, ?_⟩
  · rw [List.map_append]
    exact List.Nodup.append hnd (by simp)
      (List.disjoint_singleton.mpr (cacheLookup_none_not_mem cache url hmiss))
  · simp only [loadImage, cacheLookup_append_self cache url _ hmiss]
    rfl

/-- C7 witness: a first failing load on an empty cache, then a second
call served from the cache. -/
theorem load_image_error_cached_witness :
    (loadImage failLoader [] imgUrl).texture = none ∧
    (loadImage failLoader [] imgUrl).attempted = true ∧
    cacheLookup (loadImage failLoader [] imgUrl).cache imgUrl = some (.error failMsg) ∧
    ((loadImage failLoader [] imgUrl).cache.map Prod.fst).Nodup ∧
    loadImage failLoader (loadImage failLoader [] imgUrl).cache imgUrl =
      ⟨none, (loadImage failLoader [] imgUrl).cache, false⟩ :=
  load_image_error_cached failLoader [] imgUrl failMsg rfl rfl (by simp)

/-- C8: `load_file` is atomic on error (the whole session state is the
prior one and the error is reported) and on success clears the image
cache and search results, resets the cursor to 0, rebuilds the TOC and
installs the new content and path. -/
theorem load_file_atomic_and_clearing (parse : RStr → List Ev) (s : AppState) (path : RStr) :
    (∀ e, loadFile parse s path (.error e) = (s, .error e)) ∧
    (∀ c,
      (loadFile parse s path (.ok c)).1.content = c ∧
      (loadFile parse s path (.ok c)).1.current_file = some path ∧
      (loadFile parse s path (.ok c)).1.image_cache = [] ∧
      (loadFile parse s path (.ok c)).1.search_results = [] ∧
      (loadFile parse s path (.ok c)).1.current_search_index = 0 ∧
      (loadFile parse s path (.ok c)).1.toc_headers = generateToc (parse c) ∧
      (loadFile parse s path (.ok c)).2 = .ok ()) :=
  ⟨fun _ => rfl, fun _ => ⟨rfl, rfl, rfl, rfl, rfl, rfl, rfl⟩⟩

/-- C9: search navigation is circular and total: with results present,
next from the last index wraps to 0 and otherwise increments, previous
from 0 wraps to the last index and otherwise decrements; with no
results both operations are the identity. -/
theorem search_navigation_wraps (s : AppState) :
    (s.search_results = [] → nextSearchResult s = s ∧ prevSearchResult s = s) ∧
    (s.search_results ≠ [] →
      ((s.current_search_index = s.search_results.length - 1 →
          (nextSearchResult s).current_search_index = 0) ∧
       (s.current_search_index + 1 < s.search_results.length →
          (nextSearchResult s).current_search_index = s.current_search_index + 1) ∧
       (s.current_search_index = 0 →
          (prevSearchResult s).current_search_index = s.search_results.length - 1) ∧
       (s.current_search_index ≠ 0 →
          (prevSearchResult s).current_search_index = s.current_search_index - 1))) := by
  constructor
  · intro h
    have he : s.search_results.isEmpty = true := by simp [h]
    exact ⟨by simp [nextSearchResult, he], by simp [prevSearchResult, he]⟩
  · intro h
    have hpos : 0 < s.search_results.length := List.length_pos.mpr h
    have he : s.search_results.isEmpty = false := by
      cases hres : s.search_results with
      | nil => exact absurd hres h
      | cons a t => simp [hres]
    refine ⟨?_, ?_, ?_, ?_⟩
    · intro hidx
      simp only [nextSearchResult, he, Bool.false_eq_true, if_false]
      rw [hidx]
      rw [Nat.sub_add_cancel hpos, Nat.mod_self]
    · intro hlt
      simp only [nextSearchResult, he, Bool.false_eq_true, if_false]
      exact Nat.mod_eq_of_lt hlt
    · intro hidx
      simp only [prevSearchResult, he, Bool.false_eq_true, if_false, hidx, if_true]
    · intro hne
      simp only [prevSearchResult, he, Bool.false_eq_true, if_false, hne]

/-- C9 witness: the wrap and step cases at three concrete sessions. -/
theorem search_navigation_wraps_witness :
    (nextSearchResult navStateLast).current_search_index = 0 ∧
    (nextSearchResult navStateZero).current_search_index = 1 ∧
    (prevSearchResult navStateZero).current_search_index = 2 ∧
    (prevSearchResult navStateLast).current_search_index = 1 ∧
    nextSearchResult navStateEmpty = navStateEmpty ∧
    prevSearchResult navStateEmpty = navStateEmpty :=
  ⟨((search_navigation_wraps navStateLast).2 (by decide)).1 (by decide),
   ((search_navigation_wraps navStateZero).2 (by decide)).2.1 (by decide),
   ((search_navigation_wraps navStateZero).2 (by decide)).2.2.1 (by decide),
   ((search_navigation_wraps navStateLast).2 (by decide)).2.2.2 (by decide),
   ((search_navigation_wraps navStateEmpty).1 (by decide)).1,
   ((search_navigation_wraps navStateEmpty).1 (by decide)).2⟩

/-- C10: every state-mutating search operation preserves the invariant
that a non-empty result list is indexed in bounds by the cursor, so the
render-time indexing never panics. -/
theorem operations_preserve_search_invariant (s : AppState) (h : searchInvariant s) :
    searchInvariant (performSearchApp s) ∧
    searchInvariant (nextSearchResult s) ∧
    searchInvariant (prevSearchResult s) ∧
    searchInvariant (clearSearchResults s) ∧
    (∀ parse path res, searchInvariant ((loadFile parse s path res).1)) := by
  refine ⟨?_, ?_, ?_, ?_, ?_⟩
  · intro hne
    simp only [performSearchApp] at hne ⊢
    exact List.length_pos.mpr hne
  · by_cases he : s.search_results.isEmpty
    · simpa [nextSearchResult, he] using h
    · intro hne
      simp only [Bool.not_eq_true] at he
      simp only [nextSearchResult, he, Bool.false_eq_true, if_false] at hne ⊢
      exact Nat.mod_lt _ (List.length_pos.mpr hne)
  · by_cases he : s.search_results.isEmpty
    · simpa [prevSearchResult, he] using h
    · intro hne
      simp only [Bool.not_eq_true] at he
      simp only [prevSearchResult, he, Bool.false_eq_true, if_false] at hne ⊢
      by_cases h0 : s.current_search_index = 0
      · simp only [h0, if_true]
        exact Nat.sub_lt (List.length_pos.mpr hne) Nat.one_pos
      · simp only [h0, if_false]
        exact Nat.lt_of_le_of_lt (Nat.sub_le _ _) (h hne)
  · intro hne
    simp [clearSearchResults] at hne
  · intro parse path res
    cases res with
    | error e => exact h
    | ok c =>
      intro hne
      simp [loadFile] at hne

/-- C10 witness: the invariant is preserved at a concrete session with
three results and cursor 2, for every operation. -/
theorem operations_preserve_search_invariant_witness :
    searchInvariant (performSearchApp navStateLast) ∧
    searchInvariant (nextSearchResult navStateLast) ∧
    searchInvariant (prevSearchResult navStateLast) ∧
    searchInvariant (clearSearchResults navStateLast) ∧
    searchInvariant ((loadFile (fun _ => []) navStateLast [] (Except.ok [])).1) := by
  have H := operations_preserve_search_invariant navStateLast (fun _ => by decide)
  exact ⟨H.1, H.2.1, H.2.2.1, H.2.2.2.1, H.2.2.2.2 (fun _ => []) [] (Except.ok [])⟩

/-- C1 counterexample: on the spec's example document the compiler pass
does NOT produce the claimed three-block stream ending in a single List
block holding both items ("a", 0) and ("b", 1). -/
theorem example_block_stream_not_single_list :
    (renderPass exampleEvents [] none).map Prod.fst ≠
      some [Block.heading 1 "Title".toList,
            Block.paragraph
              [⟨"Hello ".toList, false, false, false, false, false⟩,
               ⟨"world".toList, true, false, false, false, false⟩] [],
            Block.list false [("a".toList, 0), ("b".toList, 1)]] := by decide

/-- C1 amended: the pass produces TOC [(1, "Title")] and the block
stream [Heading(1,"Title"), Paragraph("Hello ", strong "world"),
List(unordered, [("b",1)]), List(unordered, [])]: the nested list is
flushed as its own block at its close, and item "a" is dropped because
the nested item's open event clears the shared item buffer. -/
theorem example_block_stream_and_toc :
    (renderPass exampleEvents [] none).map Prod.fst =
      some [Block.heading 1 "Title".toList,
            Block.paragraph
              [⟨"Hello ".toList, false, false, false, false, false⟩,
               ⟨"world".toList, true, false, false, false, false⟩] [],
            Block.list false [("b".toList, 1)],
            Block.list false []] ∧
    generateToc exampleEvents = [⟨1, "Title".toList, 0⟩] := by decide

/-- C2: splitting the one-character text "İ" (U+0130, two bytes, whose
lowercase form "i̇" has three bytes) by the query "i" slices the
original text at byte 1, inside the character: the Rust code panics, so
the split produces no run list at all, let alone one that concatenates
back to the text. -/
theorem highlight_split_panics_on_dotted_capital_I :
    highlightSplit [iDot] ['i'] = none ∧
    strLower [iDot] = ['i', Char.ofNat 0x307] ∧
    byteLen [iDot] = 2 := by decide

/-- C3: searching "x" case-insensitively in the document "İx" records
match offsets 3..4, which are byte offsets into the lowercased line
"i̇x"; the raw stored line has 3 bytes and 2 characters, so the
[3, 4) slice of it — read as character offsets or as byte offsets — is
empty or invalid rather than equal to the query. -/
theorem search_result_offsets_invalid_on_dotted_capital_I :
    performSearch [iDot, 'x'] ['x'] false = [⟨0, [iDot, 'x'], 3, 4⟩] ∧
    charSlice [iDot, 'x'] 3 4 = [] ∧
    byteSlice [iDot, 'x'] 3 4 = none ∧
    byteLen [iDot, 'x'] = 3 := by decide

/-- C4: a render pass over the heading-free document "hello" with
pending scroll target "Missing" emits no heading at all, yet
`render_events` returns the target and the caller clears it — the
target does not remain set for subsequent passes. -/
theorem scroll_target_cleared_without_match :
    scrollAfterPass c4Events [] (some "Missing".toList) = none ∧
    (renderPass c4Events [] (some "Missing".toList)).map Prod.fst =
      some [Block.paragraph [⟨"hello".toList, false, false, false, false, false⟩] []] := by
  decide

/-- C5 counterexample: a heading whose accumulated text is the single
space " " — empty after trimming — still emits a Heading block. -/
theorem whitespace_heading_emits_block :
    (renderPass c5Events [] none).map Prod.fst = some [Block.heading 1 [' ']] ∧
    trimChars [' '] = [] := by decide

/-- C5 amended: on a heading-close event a Heading block is emitted iff
the accumulated text is non-empty, with no trimming (the untrimmed
`is_empty` test of src/markdown.rs line 231). -/
theorem heading_close_emits_iff_nonempty (s : RState) :
    (step [] s .endHeading).map RState.blocks =
      some (if s.element.accumulatedText = [] then s.blocks
            else s.blocks ++ [Block.heading s.element.headingLevel s.element.accumulatedText]) := by
  by_cases h : s.element.accumulatedText = [] <;> simp [step, h]

/-- C6 counterexample: rebuilding the search over "a a a" with query
"a" (three results) from a session whose cursor was 2 resets the
cursor to 0 instead of preserving the in-range value 2. -/
theorem rebuild_resets_cursor :
    c6State.current_search_index = 2 ∧
    (performSearchApp c6State).search_results.length = 3 ∧
    (performSearchApp c6State).current_search_index = 0 ∧
    (performSearchApp c6State).current_search_index ≠ c6State.current_search_index := by decide

/-- C6 amended: every rebuild recomputes the result list from
(document text, query, mode) and resets the cursor to 0. -/
theorem rebuild_recomputes_list_and_zeroes_cursor (s : AppState) :
    (performSearchApp s).current_search_index = 0 ∧
    (performSearchApp s).search_results =
      performSearch s.content s.search_query s.search_case_sensitive :=
  ⟨rfl, rfl⟩

end Mdzen
